import Mathlib

/-!
Shallow embedding of the RegressionModel class of src/Lesson.ipynb
(OLS and logistic regression with inference), together with proofs of the
specification claims about it.  Machine floats are modelled by real numbers;
the external scipy minimizer is modelled as an explicit oracle argument; the
external scipy distribution routines (t.sf, norm.sf) are modelled by their
defining integrals.
-/

open MeasureTheory Set Matrix

noncomputable section

namespace RegressionModel

/-- Result object returned by the external minimizer; models the two fields
of the scipy OptimizeResult that matter here: the returned point res.x and
the convergence flag res.success. -/
structure OptResult (k : ℕ) where
  x : Fin k → ℝ
  success : Bool

/-- External unconstrained minimizer capability (scipy.optimize.minimize):
takes an objective function and an initial point and returns an OptResult. -/
def Minimizer (k : ℕ) : Type :=
  ((Fin k → ℝ) → ℝ) → (Fin k → ℝ) → OptResult k

/-- Failure values of the numeric pipeline.  singularMatrix models the
LinAlgError that np.linalg.inv raises on a singular matrix (the only failure
the notebook code can produce during a fit).  insufficientData models the
InsufficientDataError named by the spec for non-positive degrees of freedom;
it is included so that the claim about it can be stated, and no code path
below ever produces it. -/
inductive FitError where
  | singularMatrix
  | insufficientData
deriving DecidableEq

/-- State of a constructed RegressionModel object: the numeric design matrix
self.x1 (n rows, k columns, the intercept column already appended when it was
requested), the numeric response self.y1, the ordered column names
self.x_list, and the validated self.regression_type. -/
structure Model (n k : ℕ) where
  x1 : Matrix (Fin n) (Fin k) ℝ
  y1 : Fin n → ℝ
  x_list : Fin k → String
  regression_type : String

variable {n k : ℕ}

/-- Number of design-matrix columns after add_intercept has run. -/
def interceptCount : Bool → ℕ → ℕ
  | true, k => k + 1
  | false, k => k

/-- Columns of the model-owned design matrix built by add_intercept: when
create_intercept is true a new frame is formed by concatenating the caller
columns with a constant column of ones (pd.concat), so the ones column sits
last; the caller frame itself is not written to. -/
def add_intercept_cols : (ci : Bool) → Matrix (Fin n) (Fin k) ℝ →
    Matrix (Fin n) (Fin (interceptCount ci k)) ℝ
  | true, x => fun i => Fin.snoc (x i) 1
  | false, x => x

/-- Column names after add_intercept: the name list x_list gets the string
"intercept" appended last when create_intercept is true. -/
def add_intercept_names : (ci : Bool) → (Fin k → String) →
    (Fin (interceptCount ci k) → String)
  | true, names => Fin.snoc names "intercept"
  | false, names => names

/-- Constructor of the RegressionModel object (the notebook init method):
validates regression_type, raising RuntimeError with the message
"Enter ols or logit to processed" otherwise (modelled as Except.error), and
builds the model-owned design matrix and name list via add_intercept. -/
def initModel (x : Matrix (Fin n) (Fin k) ℝ) (names : Fin k → String)
    (y : Fin n → ℝ) (create_intercept : Bool) (rt : String) :
    Except String (Model n (interceptCount create_intercept k)) :=
  if rt = "ols" ∨ rt = "logit" then
    Except.ok
      { x1 := add_intercept_cols create_intercept x
      , y1 := y
      , x_list := add_intercept_names create_intercept names
      , regression_type := rt }
  else Except.error "Enter ols or logit to processed"

/-- Gram matrix xt_x = self.x1.T @ self.x1. -/
def xt_x (m : Model n k) : Matrix (Fin k) (Fin k) ℝ := m.x1ᵀ * m.x1

/-- Moment vector xt_y = self.x1.T @ self.y1. -/
def xt_y (m : Model n k) : Fin k → ℝ := m.x1ᵀ *ᵥ m.y1

/-- Matrix inversion as the code uses it (self.inver wrapping np.linalg.inv):
raises LinAlgError on a singular matrix, modelled as
Except.error FitError.singularMatrix, and returns the inverse otherwise. -/
def inver (mat : Matrix (Fin k) (Fin k) ℝ) :
    Except FitError (Matrix (Fin k) (Fin k) ℝ) :=
  if mat.det = 0 then Except.error FitError.singularMatrix
  else Except.ok mat⁻¹

/-- chat2: the residual variance, dividing the residual sum of squares by
df = n - k.  The code performs no check that df is positive; the division is
carried out whatever the sign of n - k. -/
def chat2 (m : Model n k) (Beta_hat : Fin k → ℝ) : ℝ :=
  ((m.y1 - m.x1 *ᵥ Beta_hat) ⬝ᵥ (m.y1 - m.x1 *ᵥ Beta_hat)) /
    ((n : ℝ) - (k : ℝ))

/-- Density kernel of the Student-t distribution with df degrees of freedom
(the normalising constant is omitted; tSF divides by the total mass). -/
def tPdf (df u : ℝ) : ℝ := (1 + u ^ 2 / df) ^ (-((df + 1) / 2))

/-- Modelled from the spec: scipy.stats.t.sf, the right-tail (upper-tail)
survival function of the Student-t distribution with df degrees of freedom,
an external scipy routine the notebook calls in p_value.  It is written as
the normalised upper-tail integral of the Student-t density kernel. -/
def tSF (df x : ℝ) : ℝ :=
  (∫ u in Ioi x, tPdf df u) / ∫ u : ℝ, tPdf df u

/-- Standard normal probability density. -/
def normPdf (u : ℝ) : ℝ := Real.exp (-(u ^ 2) / 2) / Real.sqrt (2 * Real.pi)

/-- Modelled from the spec: scipy.stats.norm.sf, the standard normal survival
function, an external scipy routine the notebook calls in
logistic_regression; written as the upper-tail integral of the density. -/
def norm_sf (x : ℝ) : ℝ := ∫ u in Ioi x, normPdf u

/-- Standard normal cumulative distribution function Φ, written from the
spec formula 2·(1 − Φ(|z|)); this is the specification-side definition
compared against norm_sf. -/
def normCDF (x : ℝ) : ℝ := ∫ u in Iic x, normPdf u

/-- loglike: the negative log-likelihood objective defined inside
logistic_regression, translated line by line: gamma = exp(x@b)/(1+exp(x@b)),
then ll = -1 * Σ_i (y_i log(gamma_i) + (1-y_i) log(1-gamma_i)).  The
logarithms are applied directly to gamma_i and 1-gamma_i; there is no
clamping of the probabilities and no error raised before taking logs. -/
def loglike (b : Fin k → ℝ) (y : Fin n → ℝ)
    (x : Matrix (Fin n) (Fin k) ℝ) : ℝ :=
  let gamma : Fin n → ℝ :=
    (fun i => Real.exp ((x *ᵥ b) i) / (1 + Real.exp ((x *ᵥ b) i)));
  -1 * ∑ i, (y i * Real.log (gamma i) + (1 - y i) * Real.log (1 - gamma i))

/-- Spec-side sigmoid σ(t) = exp(t)/(1+exp(t)), written from the spec. -/
def sigma_spec (t : ℝ) : ℝ := Real.exp t / (1 + Real.exp t)

/-- Spec-side negative log-likelihood
NLL(β) = −Σ_i (y_i·log(σ(x_i β)) + (1−y_i)·log(1−σ(x_i β))), written directly
from the specification text, to be compared with loglike. -/
def NLL_spec (x : Matrix (Fin n) (Fin k) ℝ) (y : Fin n → ℝ)
    (b : Fin k → ℝ) : ℝ :=
  -(∑ i, (y i * Real.log (sigma_spec (∑ j, x i j * b j)) +
      (1 - y i) * Real.log (1 - sigma_spec (∑ j, x i j * b j))))

/-- Fixed starting vector of the logit search:
b = np.full((self.num_vars), 0.1). -/
def logit_b (k : ℕ) : Fin k → ℝ := fun _ => 0.1

/-- Coefficients of the logit fit:
betas = minimize(loglike, b, args=(y, x)).x — only the field x of the
optimizer result is consulted. -/
def logit_betas (m : Model n k) (minimize : Minimizer k) : Fin k → ℝ :=
  (minimize (fun b => loglike b m.y1 m.x1) (logit_b k)).x

/-- np.mean(y): the mean of the response. -/
def y_mean (m : Model n k) : ℝ := (∑ i, m.y1 i) / (n : ℝ)

/-- shat2 = self.num_obs * np.mean(y) * (1 - np.mean(y)). -/
def shat2 (m : Model n k) : ℝ := (n : ℝ) * y_mean m * (1 - y_mean m)

/-- resultToDict: the OLS results mapping, one record per design-matrix
column in x_list order, each record keyed by coefficient, standard_error,
t_stat and p_value (a Python dict is modelled as an association list in
insertion order). -/
def resultToDict (x_list : Fin k → String)
    (Beta_hat stdError t_stat p_val : Fin k → ℝ) :
    List (String × List (String × ℝ)) :=
  (List.finRange k).map fun i =>
    (x_list i,
      [("coefficient", Beta_hat i), ("standard_error", stdError i),
       ("t_stat", t_stat i), ("p_value", p_val i)])

/-- Results dictionary built at the end of logistic_regression: one record
per column of self.x in column order, keyed by coefficient, standard_error,
z_stat and p_value. -/
def logit_results (x_list : Fin k → String)
    (betas stdError zScores p_val : Fin k → ℝ) :
    List (String × List (String × ℝ)) :=
  (List.finRange k).map fun i =>
    (x_list i,
      [("coefficient", betas i), ("standard_error", stdError i),
       ("z_stat", zScores i), ("p_value", p_val i)])

/-- Fields the fitted model object exposes after a successful fit.  stat
holds self.t_stat on the OLS path and self.zScores on the logit path; the
family-specific key name appears inside results. -/
structure FitOutput (k : ℕ) where
  Beta_hat : Fin k → ℝ
  stdError : Fin k → ℝ
  stat : Fin k → ℝ
  p_val : Fin k → ℝ
  results : List (String × List (String × ℝ))

/-- Value produced by the OLS path when the np.linalg.inv calls succeed:
Beta_hat = (xt_x)⁻¹ xt_y, covariance chat2·(xt_x)⁻¹, standard errors the
square roots of its diagonal, t_j = Beta_hat_j / se_j, and
p_j = t.sf(t_j, df) at the signed statistic. -/
def ols_output (m : Model n k) : FitOutput k :=
  let B := (xt_x m)⁻¹ *ᵥ xt_y m
  let variance := fun j => (chat2 m B • (xt_x m)⁻¹) j j
  let se := fun j => Real.sqrt (variance j)
  let t := fun j => B j / se j
  let p := fun j => tSF ((n : ℝ) - (k : ℝ)) (t j)
  { Beta_hat := B, stdError := se, stat := t, p_val := p
  , results := resultToDict m.x_list B se t p }

/-- ols_regression: runs BetaHat, chat2 / varianceOfBeta_hat, std_error,
t_statistic, p_value and resultToDict in the order the methods are called;
the two inver binds are the two np.linalg.inv invocations (one in BetaHat,
one in varianceOfBeta_hat). -/
def ols_regression (m : Model n k) : Except FitError (FitOutput k) := do
  let xtxInv ← inver (xt_x m)
  let B := xtxInv *ᵥ xt_y m
  let xtxInv2 ← inver (xt_x m)
  let variance := fun j => (chat2 m B • xtxInv2) j j
  let se := fun j => Real.sqrt (variance j)
  let t := fun j => B j / se j
  let p := fun j => tSF ((n : ℝ) - (k : ℝ)) (t j)
  return { Beta_hat := B, stdError := se, stat := t, p_val := p
         , results := resultToDict m.x_list B se t p }

/-- Value produced by the logit path when np.linalg.inv succeeds. -/
def logit_output (m : Model n k) (minimize : Minimizer k) : FitOutput k :=
  let betas := logit_betas m minimize
  let cov := shat2 m • (xt_x m)⁻¹
  let se := fun j => Real.sqrt (cov j j)
  let z := fun j => betas j / se j
  let p := fun j => norm_sf |z j| * 2
  { Beta_hat := betas, stdError := se, stat := z, p_val := p
  , results := logit_results m.x_list betas se z p }

/-- logistic_regression: betas from the external minimizer (only res.x is
read; the convergence flag is never consulted and no warning or error is
attached), then cov = shat2 · inv(xᵀx), standard errors, z scores,
p values = norm.sf(|z|)·2, and the results dictionary. -/
def logistic_regression (m : Model n k) (minimize : Minimizer k) :
    Except FitError (FitOutput k) := do
  let betas := logit_betas m minimize
  let xtxInv ← inver (xt_x m)
  let cov := shat2 m • xtxInv
  let se := fun j => Real.sqrt (cov j j)
  let z := fun j => betas j / se j
  let p := fun j => norm_sf |z j| * 2
  return { Beta_hat := betas, stdError := se, stat := z, p_val := p
         , results := logit_results m.x_list betas se z p }

/-- fit_model: dispatches on self.regression_type; with any other value of
the attribute the method falls through and the results are never populated
(the none case, unreachable after initModel validation). -/
def fit_model (m : Model n k) (minimize : Minimizer k) :
    Option (Except FitError (FitOutput k)) :=
  if m.regression_type = "ols" then some (ols_regression m)
  else if m.regression_type = "logit" then some (logistic_regression m minimize)
  else none

/-- Explicit-state view of one caller session: the caller-owned regressor
table x, column names and response y, next to the model-owned slots.  The
construct and run_fit steps below thread this state exactly as the notebook
methods touch it. -/
structure Session (n k : ℕ) where
  x : Matrix (Fin n) (Fin k) ℝ
  names : Fin k → String
  y : Fin n → ℝ
  model : Option (Model n (k + 1))
  fitted : Option (Except FitError (FitOutput (k + 1)))

/-- Construction step of a session with create_intercept = true: builds the
model from the caller data (writing only the model slot of the state). -/
def construct (s : Session n k) (rt : String) :
    Except String (Session n k) :=
  match initModel s.x s.names s.y true rt with
  | Except.ok m => Except.ok { s with model := some m }
  | Except.error e => Except.error e

/-- Fit step of a session: calls fit_model on the stored model, writing only
the fitted slot of the state. -/
def run_fit (s : Session n k) (minimize : Minimizer (k + 1)) : Session n k :=
  { s with fitted := s.model.bind (fun m => fit_model m minimize) }

/-- Concrete 1-column logit model used as a witness instance. -/
def mLogit : Model 1 1 :=
  { x1 := !![1], y1 := ![1], x_list := !["w"], regression_type := "logit" }

/-- Concrete 2-observation, 1-column OLS model used as a witness instance
(its fitted coefficient is -1 with a negative t statistic). -/
def mOls : Model 2 1 :=
  { x1 := !![1; 1], y1 := ![0, -2], x_list := !["c"], regression_type := "ols" }

/-- Concrete OLS model with as many columns as observations (df = 0). -/
def mOls1 : Model 1 1 :=
  { x1 := !![1], y1 := ![1], x_list := !["c"], regression_type := "ols" }

/-- Minimizer oracle returning a fixed point with a chosen success flag. -/
def oflag (c : Bool) : Minimizer 1 := fun _ _ => { x := fun _ => 0, success := c }

/-- Arbitrary constant minimizer oracle used in witnesses. -/
def oconst : Minimizer 1 := fun _ _ => { x := fun _ => 0.2, success := true }

/-- Empty caller regressor table (one observation, no columns). -/
def x0 : Matrix (Fin 1) (Fin 0) ℝ := fun _ j => j.elim0

/-- Empty caller name list. -/
def names0 : Fin 0 → String := fun j => j.elim0

/-- Model produced by initModel from the empty table with an intercept. -/
def mInit0 : Model 1 1 :=
  { x1 := add_intercept_cols true x0
  , y1 := ![1]
  , x_list := add_intercept_names true names0
  , regression_type := "ols" }

/-- Concrete session state used as a witness instance for the frame claim. -/
def s0 : Session 1 0 :=
  { x := x0, names := names0, y := ![1], model := none, fitted := none }

/-- Session state after constructing the model inside s0. -/
def s0' : Session 1 0 :=
  { s0 with model := some mInit0 }

/-! Helper lemmas about the embedded pipeline. -/

theorem inver_of_det_ne {mat : Matrix (Fin k) (Fin k) ℝ} (h : mat.det ≠ 0) :
    inver mat = Except.ok mat⁻¹ := by
  simp [inver, h]

theorem inver_of_det_eq {mat : Matrix (Fin k) (Fin k) ℝ} (h : mat.det = 0) :
    inver mat = Except.error FitError.singularMatrix := by
  simp [inver, h]

theorem ols_regression_eq {m : Model n k} (h : (xt_x m).det ≠ 0) :
    ols_regression m = Except.ok (ols_output m) := by
  rw [ols_regression, inver_of_det_ne h]
  rfl

theorem ols_regression_singular {m : Model n k} (h : (xt_x m).det = 0) :
    ols_regression m = Except.error FitError.singularMatrix := by
  rw [ols_regression, inver_of_det_eq h]
  rfl

theorem logistic_regression_eq {m : Model n k} {o : Minimizer k}
    (h : (xt_x m).det ≠ 0) :
    logistic_regression m o = Except.ok (logit_output m o) := by
  rw [logistic_regression, inver_of_det_ne h]
  rfl

/-! Facts about the standard normal density: integrability, total mass one,
and the relation between the survival function and the CDF. -/

theorem exp_neg_sq_form :
    (fun u : ℝ => Real.exp (-(u ^ 2) / 2)) =
      fun u : ℝ => Real.exp (-(1 / 2 : ℝ) * u ^ 2) := by
  funext u
  congr 1
  ring

theorem normPdf_integrable : Integrable normPdf := by
  have h2 : Integrable (fun u : ℝ => Real.exp (-(u ^ 2) / 2)) := by
    rw [exp_neg_sq_form]
    exact integrable_exp_neg_mul_sq (by norm_num)
  unfold normPdf
  exact h2.div_const (Real.sqrt (2 * Real.pi))

theorem normPdf_total : ∫ u : ℝ, normPdf u = 1 := by
  unfold normPdf
  rw [integral_div, exp_neg_sq_form, integral_gaussian (1 / 2 : ℝ),
    show Real.pi / (1 / 2 : ℝ) = 2 * Real.pi by ring]
  exact div_self (Real.sqrt_ne_zero'.mpr (by positivity))

theorem norm_sf_eq_one_sub_cdf (x : ℝ) : norm_sf x = 1 - normCDF x := by
  have h := intervalIntegral.integral_Iic_add_Ioi (b := x) (f := normPdf) (μ := volume)
    normPdf_integrable.integrableOn normPdf_integrable.integrableOn
  rw [normPdf_total] at h
  unfold norm_sf normCDF
  linarith

/-! Facts about the Student-t density kernel: positivity, evenness,
integrability, and the resulting behaviour of the upper-tail survival
function at negative arguments. -/

theorem tPdf_base_pos {d : ℝ} (hd : 1 ≤ d) (u : ℝ) : 0 < 1 + u ^ 2 / d := by
  have hd0 : (0 : ℝ) < d := lt_of_lt_of_le one_pos hd
  have h : 0 ≤ u ^ 2 / d := div_nonneg (sq_nonneg u) hd0.le
  linarith

theorem tPdf_base_one_le {d : ℝ} (hd : 1 ≤ d) (u : ℝ) : 1 ≤ 1 + u ^ 2 / d := by
  have hd0 : (0 : ℝ) < d := lt_of_lt_of_le one_pos hd
  have h : 0 ≤ u ^ 2 / d := div_nonneg (sq_nonneg u) hd0.le
  linarith

theorem tPdf_pos {d : ℝ} (hd : 1 ≤ d) (u : ℝ) : 0 < tPdf d u :=
  Real.rpow_pos_of_pos (tPdf_base_pos hd u) _

theorem tPdf_even (d u : ℝ) : tPdf d (-u) = tPdf d u := by
  unfold tPdf
  rw [show (-u) ^ 2 = u ^ 2 by ring]

theorem tPdf_le_inv_base {d : ℝ} (hd : 1 ≤ d) (u : ℝ) :
    tPdf d u ≤ (1 + u ^ 2 / d)⁻¹ := by
  rw [← Real.rpow_neg_one (1 + u ^ 2 / d)]
  exact Real.rpow_le_rpow_of_exponent_le (tPdf_base_one_le hd u) (by linarith)

theorem tPdf_integrable {d : ℝ} (hd : 1 ≤ d) : Integrable (tPdf d) := by
  have hd0 : (0 : ℝ) < d := lt_of_lt_of_le one_pos hd
  have hs : Real.sqrt d ≠ 0 := Real.sqrt_ne_zero'.mpr hd0
  have hbound : Integrable (fun u : ℝ => (1 + u ^ 2 / d)⁻¹) := by
    have h1 : Integrable (fun u : ℝ => (1 + (u / Real.sqrt d) ^ 2)⁻¹) :=
      integrable_inv_one_add_sq.comp_div hs
    have h2 : (fun u : ℝ => (1 + u ^ 2 / d)⁻¹)
        = fun u : ℝ => (1 + (u / Real.sqrt d) ^ 2)⁻¹ := by
      funext u
      rw [div_pow, Real.sq_sqrt hd0.le]
    rw [h2]
    exact h1
  have hcont : Continuous (tPdf d) := by
    unfold tPdf
    refine Continuous.rpow_const ?_ ?_
    · exact continuous_const.add ((continuous_pow 2).div_const d)
    · intro u
      exact Or.inl (tPdf_base_pos hd u).ne'
  refine hbound.mono' hcont.aestronglyMeasurable ?_
  refine Filter.Eventually.of_forall fun u => ?_
  rw [Real.norm_eq_abs, abs_of_pos (tPdf_pos hd u)]
  exact tPdf_le_inv_base hd u

theorem tPdf_total_pos {d : ℝ} (hd : 1 ≤ d) : 0 < ∫ u : ℝ, tPdf d u := by
  have hsupp : Function.support (tPdf d) = Set.univ :=
    Set.eq_univ_of_forall fun u => (tPdf_pos hd u).ne'
  rw [integral_pos_iff_support_of_nonneg
    (fun u => (tPdf_pos hd u).le) (tPdf_integrable hd), hsupp]
  simp

theorem tPdf_Iic_eq_Ioi (d : ℝ) :
    ∫ u in Iic (0 : ℝ), tPdf d u = ∫ u in Ioi (0 : ℝ), tPdf d u := by
  have h := integral_comp_neg_Ioi (0 : ℝ) (tPdf d)
  simp only [tPdf_even, neg_zero] at h
  exact h.symm

theorem tPdf_Ioi_zero {d : ℝ} (hd : 1 ≤ d) :
    ∫ u in Ioi (0 : ℝ), tPdf d u = (∫ u : ℝ, tPdf d u) / 2 := by
  have hsplit := intervalIntegral.integral_Iic_add_Ioi (b := (0 : ℝ))
    (f := tPdf d) (μ := volume)
    (tPdf_integrable hd).integrableOn (tPdf_integrable hd).integrableOn
  have heq := tPdf_Iic_eq_Ioi d
  linarith

theorem tSF_gt_half {d x : ℝ} (hd : 1 ≤ d) (hx : x < 0) : 1 / 2 < tSF d x := by
  have hint := tPdf_integrable hd
  have hT : 0 < ∫ u : ℝ, tPdf d u := tPdf_total_pos hd
  have hunion : Ioc x (0 : ℝ) ∪ Ioi (0 : ℝ) = Ioi x := Ioc_union_Ioi_eq_Ioi hx.le
  have hsplit : ∫ u in Ioi x, tPdf d u
      = (∫ u in Ioc x (0 : ℝ), tPdf d u) + ∫ u in Ioi (0 : ℝ), tPdf d u := by
    rw [← hunion, setIntegral_union (Ioc_disjoint_Ioi le_rfl) measurableSet_Ioi
      hint.integrableOn hint.integrableOn]
  have hd0 : (0 : ℝ) < d := lt_of_lt_of_le one_pos hd
  have hmid : tPdf d x * (0 - x) ≤ ∫ u in Ioc x (0 : ℝ), tPdf d u := by
    have hle : ∀ u ∈ Ioc x (0 : ℝ), tPdf d x ≤ tPdf d u := by
      intro u hu
      have h1 : u ^ 2 ≤ x ^ 2 := by nlinarith [hu.1, hu.2]
      have hbase : 1 + u ^ 2 / d ≤ 1 + x ^ 2 / d := by
        have h2 : u ^ 2 / d ≤ x ^ 2 / d := (div_le_div_iff_of_pos_right hd0).mpr h1
        linarith
      unfold tPdf
      exact Real.rpow_le_rpow_of_nonpos (tPdf_base_pos hd u) hbase (by linarith)
    have hb := setIntegral_ge_of_const_le measurableSet_Ioc
      (by rw [Real.volume_Ioc]; exact ENNReal.ofReal_ne_top) hle hint.integrableOn
    rw [Real.volume_Ioc, ENNReal.toReal_ofReal (by linarith : (0 : ℝ) ≤ 0 - x)] at hb
    exact hb
  have hmidpos : 0 < ∫ u in Ioc x (0 : ℝ), tPdf d u := by
    have hpx := tPdf_pos hd x
    nlinarith
  rw [tSF, hsplit, tPdf_Ioi_zero hd, lt_div_iff₀ hT]
  linarith

/-! Determinant computations for the concrete witness models. -/

theorem det_mLogit : (xt_x mLogit).det = 1 := by
  simp [xt_x, mLogit, Matrix.det_fin_one, Matrix.mul_apply, Fin.sum_univ_one]

theorem det_mOls : (xt_x mOls).det = 2 := by
  simp [xt_x, mOls, Matrix.det_fin_one, Matrix.mul_apply, Fin.sum_univ_two,
    Matrix.vecHead, Matrix.transpose_apply]
  norm_num

theorem det_mOls1 : (xt_x mOls1).det = 1 := by
  simp [xt_x, mOls1, Matrix.det_fin_one, Matrix.mul_apply, Fin.sum_univ_one]

theorem det_mInit0 : (xt_x mInit0).det = 1 := by
  simp [xt_x, mInit0, add_intercept_cols, Matrix.det_fin_one, Matrix.mul_apply,
    Fin.sum_univ_one, Fin.snoc]

/-- C1: the objective handed to the external minimizer by the logit fit is
exactly the negative log-likelihood of the spec (with the sigmoid link),
closed over the fixed design matrix and response, and the fitted coefficient
vector is exactly the point the minimizer returns. -/
theorem logit_objective_is_NLL (m : Model n k) (o : Minimizer k)
    (h : (xt_x m).det ≠ 0) :
    logistic_regression m o = Except.ok (logit_output m o) ∧
    (logit_output m o).Beta_hat
      = (o (fun b => loglike b m.y1 m.x1) (logit_b k)).x ∧
    ∀ b : Fin k → ℝ, loglike b m.y1 m.x1 = NLL_spec m.x1 m.y1 b := by
  refine ⟨logistic_regression_eq h, rfl, fun b => ?_⟩
  simp [loglike, NLL_spec, sigma_spec, Matrix.mulVec, dotProduct, neg_one_mul]

theorem logit_objective_is_NLL_witness :
    (xt_x mLogit).det ≠ 0 ∧
    ((logit_output mLogit oconst).Beta_hat
        = (oconst (fun b => loglike b mLogit.y1 mLogit.x1) (logit_b 1)).x ∧
      ∀ b : Fin 1 → ℝ,
        loglike b mLogit.y1 mLogit.x1 = NLL_spec mLogit.x1 mLogit.y1 b) :=
  ⟨by rw [det_mLogit]; norm_num,
   (logit_objective_is_NLL mLogit oconst
      (by rw [det_mLogit]; norm_num)).2⟩

/-- C2: after the optimizer returns, the logit fit computes the approximate
covariance n·mean(y)·(1−mean(y))·(xᵀx)⁻¹, standard errors as the square roots
of its diagonal, z statistics z_j = β_j / se_j, and two-sided p-values
2·(1 − Φ(|z_j|)) where Φ is the standard normal CDF. -/
theorem logit_inference_formulas (m : Model n k) (o : Minimizer k)
    (h : (xt_x m).det ≠ 0) :
    logistic_regression m o = Except.ok (logit_output m o) ∧
    (∀ j, (logit_output m o).stdError j
        = Real.sqrt
            ((((n : ℝ) * y_mean m * (1 - y_mean m)) • (xt_x m)⁻¹) j j)) ∧
    (∀ j, (logit_output m o).stat j
        = (logit_output m o).Beta_hat j / (logit_output m o).stdError j) ∧
    ∀ j, (logit_output m o).p_val j
        = 2 * (1 - normCDF |(logit_output m o).stat j|) := by
  refine ⟨logistic_regression_eq h, fun j => ?_, fun j => rfl, fun j => ?_⟩
  · simp [logit_output, shat2]
  · show norm_sf |(logit_output m o).stat j| * 2 = _
    rw [norm_sf_eq_one_sub_cdf]
    ring

theorem logit_inference_formulas_witness :
    (xt_x mLogit).det ≠ 0 ∧
    ((∀ j, (logit_output mLogit oconst).stdError j
        = Real.sqrt
            (((((1 : ℕ) : ℝ) * y_mean mLogit * (1 - y_mean mLogit))
                • (xt_x mLogit)⁻¹) j j)) ∧
      (∀ j, (logit_output mLogit oconst).stat j
        = (logit_output mLogit oconst).Beta_hat j
            / (logit_output mLogit oconst).stdError j) ∧
      ∀ j, (logit_output mLogit oconst).p_val j
        = 2 * (1 - normCDF |(logit_output mLogit oconst).stat j|)) :=
  ⟨by rw [det_mLogit]; norm_num,
   (logit_inference_formulas mLogit oconst (by rw [det_mLogit]; norm_num)).2⟩

/-- C3: the OLS closed form: coefficients (xᵀx)⁻¹xᵀy satisfying the normal
equations, residual variance RSS/(n−k), standard errors from the diagonal of
chat2·(xᵀx)⁻¹, and t statistics β_j / se_j. -/
theorem ols_closed_form (m : Model n k) (h : (xt_x m).det ≠ 0) :
    ols_regression m = Except.ok (ols_output m) ∧
    xt_x m *ᵥ (ols_output m).Beta_hat = xt_y m ∧
    (ols_output m).Beta_hat = (xt_x m)⁻¹ *ᵥ xt_y m ∧
    chat2 m (ols_output m).Beta_hat
      = ((m.y1 - m.x1 *ᵥ (ols_output m).Beta_hat) ⬝ᵥ
          (m.y1 - m.x1 *ᵥ (ols_output m).Beta_hat)) / ((n : ℝ) - (k : ℝ)) ∧
    (∀ j, (ols_output m).stdError j
        = Real.sqrt ((chat2 m ((ols_output m).Beta_hat) • (xt_x m)⁻¹) j j)) ∧
    ∀ j, (ols_output m).stat j
        = (ols_output m).Beta_hat j / (ols_output m).stdError j := by
  refine ⟨ols_regression_eq h, ?_, rfl, rfl, fun j => rfl, fun j => rfl⟩
  show xt_x m *ᵥ ((xt_x m)⁻¹ *ᵥ xt_y m) = xt_y m
  rw [Matrix.mulVec_mulVec, Matrix.mul_nonsing_inv _ (isUnit_iff_ne_zero.mpr h),
    Matrix.one_mulVec]

theorem ols_closed_form_witness :
    (xt_x mOls).det ≠ 0 ∧
    (xt_x mOls *ᵥ (ols_output mOls).Beta_hat = xt_y mOls ∧
      (ols_output mOls).Beta_hat = (xt_x mOls)⁻¹ *ᵥ xt_y mOls ∧
      chat2 mOls (ols_output mOls).Beta_hat
        = ((mOls.y1 - mOls.x1 *ᵥ (ols_output mOls).Beta_hat) ⬝ᵥ
            (mOls.y1 - mOls.x1 *ᵥ (ols_output mOls).Beta_hat))
          / (((2 : ℕ) : ℝ) - ((1 : ℕ) : ℝ)) ∧
      (∀ j, (ols_output mOls).stdError j
        = Real.sqrt
            ((chat2 mOls ((ols_output mOls).Beta_hat) • (xt_x mOls)⁻¹) j j)) ∧
      ∀ j, (ols_output mOls).stat j
        = (ols_output mOls).Beta_hat j / (ols_output mOls).stdError j) :=
  ⟨by rw [det_mOls]; norm_num,
   (ols_closed_form mOls (by rw [det_mOls]; norm_num)).2⟩

/-! Concrete evaluation of the OLS pipeline on mOls, for the p-value
witness: the fitted coefficient is -1, the standard error is 1, so the t
statistic is negative. -/

theorem xt_x_mOls : xt_x mOls = !![2] := by
  ext i j
  fin_cases i
  fin_cases j
  simp [xt_x, mOls, Matrix.mul_apply, Fin.sum_univ_two, Matrix.vecHead,
    Matrix.transpose_apply]
  norm_num

theorem inv_xt_x_mOls : (xt_x mOls)⁻¹ = !![(2 : ℝ)⁻¹] := by
  rw [xt_x_mOls, Matrix.inv_def]
  ext i j
  fin_cases i
  fin_cases j
  simp [Matrix.adjugate_fin_one, Matrix.det_fin_one, Ring.inverse_eq_inv']

theorem mOls_B0 : ((xt_x mOls)⁻¹ *ᵥ xt_y mOls) 0 = -1 := by
  have h : xt_y mOls 0 = -2 := by
    simp [xt_y, mOls, Matrix.mulVec, dotProduct, Fin.sum_univ_two,
      Matrix.vecHead, Matrix.transpose_apply]
  rw [inv_xt_x_mOls]
  simp only [Matrix.mulVec, dotProduct, Fin.sum_univ_one] at h ⊢
  rw [h]
  norm_num

theorem mOls_Bfun : ((xt_x mOls)⁻¹ *ᵥ xt_y mOls) = fun _ => (-1 : ℝ) := by
  funext j
  fin_cases j
  exact mOls_B0

theorem mOls_chat2 : chat2 mOls ((xt_x mOls)⁻¹ *ᵥ xt_y mOls) = 2 := by
  unfold chat2
  rw [mOls_Bfun]
  have hMB : ∀ i, (mOls.x1 *ᵥ fun _ => (-1 : ℝ)) i = -1 := by
    intro i
    fin_cases i <;>
      simp [mOls, Matrix.mulVec, dotProduct, Fin.sum_univ_one, Matrix.vecHead]
  simp only [dotProduct, Fin.sum_univ_two, Pi.sub_apply, hMB]
  simp [mOls]
  norm_num

theorem mOls_se : (ols_output mOls).stdError 0 = 1 := by
  show Real.sqrt
      ((chat2 mOls ((xt_x mOls)⁻¹ *ᵥ xt_y mOls) • (xt_x mOls)⁻¹) 0 0) = 1
  rw [mOls_chat2, inv_xt_x_mOls]
  rw [show ((2 : ℝ) • !![(2 : ℝ)⁻¹]) 0 0 = 2 * (2 : ℝ)⁻¹ by
    simp [Matrix.smul_apply]]
  norm_num

theorem mOls_stat_neg : (ols_output mOls).stat 0 < 0 := by
  have h : (ols_output mOls).stat 0
      = ((xt_x mOls)⁻¹ *ᵥ xt_y mOls) 0 / (ols_output mOls).stdError 0 := rfl
  rw [h, mOls_B0, mOls_se]
  norm_num

/-- C4: OLS p-values are the upper-tail Student-t survival function with
df = n − k evaluated at the signed statistic itself (not doubled, not at the
absolute value), so a negative t statistic gives a p-value above one half
(shown for df at least one, where the Student-t density is integrable). -/
theorem ols_pvalue_signed_tail (m : Model n k) (h : (xt_x m).det ≠ 0) :
    ols_regression m = Except.ok (ols_output m) ∧
    (∀ j, (ols_output m).p_val j
        = tSF ((n : ℝ) - (k : ℝ)) ((ols_output m).stat j)) ∧
    ∀ j, 1 ≤ (n : ℝ) - (k : ℝ) → (ols_output m).stat j < 0 →
      1 / 2 < (ols_output m).p_val j := by
  refine ⟨ols_regression_eq h, fun j => rfl, fun j hdf hneg => ?_⟩
  have hp : (ols_output m).p_val j
      = tSF ((n : ℝ) - (k : ℝ)) ((ols_output m).stat j) := rfl
  rw [hp]
  exact tSF_gt_half hdf hneg

theorem ols_pvalue_signed_tail_witness :
    (xt_x mOls).det ≠ 0 ∧ 1 ≤ ((2 : ℕ) : ℝ) - ((1 : ℕ) : ℝ) ∧
    (ols_output mOls).stat 0 < 0 ∧ 1 / 2 < (ols_output mOls).p_val 0 :=
  ⟨by rw [det_mOls]; norm_num, by norm_num, mOls_stat_neg,
   (ols_pvalue_signed_tail mOls (by rw [det_mOls]; norm_num)).2.2 0
     (by norm_num) mOls_stat_neg⟩

theorem logistic_regression_singular {m : Model n k} {o : Minimizer k}
    (h : (xt_x m).det = 0) :
    logistic_regression m o = Except.error FitError.singularMatrix := by
  rw [logistic_regression, inver_of_det_eq h]
  rfl

/-- C6 (amended): the logit fit never consults the convergence flag of the
minimizer result: two oracles whose returned points agree everywhere produce
byte-identical fit results, whatever their success flags, so non-convergence
is neither surfaced as a warning nor turned into an error. -/
theorem logit_ignores_convergence_flag (m : Model n k) (o₁ o₂ : Minimizer k)
    (h : ∀ f g, (o₁ f g).x = (o₂ f g).x) :
    fit_model m o₁ = fit_model m o₂ := by
  have hb : logit_betas m o₁ = logit_betas m o₂ := by
    unfold logit_betas
    rw [h]
  have hl : logistic_regression m o₁ = logistic_regression m o₂ := by
    unfold logistic_regression
    rw [hb]
  unfold fit_model
  rw [hl]

/-- Counterexample to C6 as stated: on a concrete model, a minimizer run that
reports non-convergence (success = false) yields literally the same plain
successful result as a converged run, so no ConvergenceWarning accompanies it
and no OptimizationFailedError is possible. -/
theorem convergence_flag_unobservable :
    logistic_regression mLogit (oflag false)
      = logistic_regression mLogit (oflag true) ∧
    logistic_regression mLogit (oflag false)
      = Except.ok (logit_output mLogit (oflag false)) :=
  ⟨rfl, logistic_regression_eq (by rw [det_mLogit]; norm_num)⟩

theorem logit_ignores_convergence_flag_witness :
    fit_model mLogit (oflag false) = fit_model mLogit (oflag true) :=
  logit_ignores_convergence_flag mLogit (oflag false) (oflag true)
    (fun _ _ => rfl)

/-- C7 (amended): the OLS path performs no degrees-of-freedom check: whenever
xᵀx is invertible the fit returns a populated result even when df = n − k is
zero or negative, and its only failure is the singular-matrix error raised by
matrix inversion. -/
theorem ols_no_df_check (m : Model n k) :
    ((xt_x m).det ≠ 0 → ols_regression m = Except.ok (ols_output m)) ∧
    ((xt_x m).det = 0 →
      ols_regression m = Except.error FitError.singularMatrix) :=
  ⟨fun h => ols_regression_eq h, fun h => ols_regression_singular h⟩

/-- Counterexample to C7 as stated: a model with as many columns as
observations (df = 0) does not fail with InsufficientDataError; the fit
returns a populated result. -/
theorem no_insufficient_data_error :
    (1 : ℕ) ≤ 1 ∧
    ols_regression mOls1 = Except.ok (ols_output mOls1) ∧
    ols_regression mOls1 ≠ Except.error FitError.insufficientData := by
  have h : ols_regression mOls1 = Except.ok (ols_output mOls1) :=
    ols_regression_eq (by rw [det_mOls1]; norm_num)
  refine ⟨le_refl 1, h, ?_⟩
  rw [h]
  simp

theorem ols_no_df_check_witness :
    ols_regression mOls1 = Except.ok (ols_output mOls1) :=
  (ols_no_df_check mOls1).1 (by rw [det_mOls1]; norm_num)

/-- C9: re-running the fit with the same data and configuration gives the
same results: the fit outcome depends on the minimizer oracle only through
its value at the one fixed query the code makes — the objective closed over
the data together with the fixed starting vector — and that starting vector
is the constant 0.1 vector, independent of the data. -/
theorem fit_deterministic_fixed_start (m : Model n k) (o₁ o₂ : Minimizer k)
    (h : o₁ (fun b => loglike b m.y1 m.x1) (logit_b k)
       = o₂ (fun b => loglike b m.y1 m.x1) (logit_b k)) :
    fit_model m o₁ = fit_model m o₂ ∧ ∀ i, logit_b k i = 0.1 := by
  refine ⟨?_, fun i => rfl⟩
  have hb : logit_betas m o₁ = logit_betas m o₂ := by
    unfold logit_betas
    rw [h]
  have hl : logistic_regression m o₁ = logistic_regression m o₂ := by
    unfold logistic_regression
    rw [hb]
  unfold fit_model
  rw [hl]

theorem fit_deterministic_fixed_start_witness :
    fit_model mLogit (oflag true)
        = fit_model mLogit (fun f v => oflag true f v) ∧
    ∀ i, logit_b 1 i = 0.1 :=
  fit_deterministic_fixed_start mLogit (oflag true)
    (fun f v => oflag true f v) rfl

/-- C8: the results mapping of every successful fit has exactly one record
per design-matrix column, keyed in column order, each record holding exactly
the keys coefficient, standard_error, t_stat (OLS) or z_stat (logit) and
p_value, with the coefficient entry equal to the fitted coefficient at that
column index; and construction with create_intercept appends the column name
"intercept" last. -/
theorem results_schema :
    (∀ (n k : ℕ) (m : Model n k) (mz : Minimizer k) (out : FitOutput k),
        fit_model m mz = some (Except.ok out) →
        out.results = (List.finRange k).map (fun i =>
          (m.x_list i,
            [("coefficient", out.Beta_hat i),
             ("standard_error", out.stdError i),
             ((if m.regression_type = "ols" then "t_stat" else "z_stat"),
               out.stat i),
             ("p_value", out.p_val i)])) ∧
        out.results.map Prod.fst = (List.finRange k).map m.x_list) ∧
    (∀ (n k : ℕ) (x : Matrix (Fin n) (Fin k) ℝ) (names : Fin k → String)
        (y : Fin n → ℝ) (rt : String) (m : Model n (k + 1)),
        initModel x names y true rt = Except.ok m →
        m.x_list = Fin.snoc names "intercept") := by
  constructor
  · intro n k m mz out h
    unfold fit_model at h
    by_cases hols : m.regression_type = "ols"
    · rw [if_pos hols] at h
      have h2 : ols_regression m = Except.ok out := Option.some.inj h
      by_cases hdet : (xt_x m).det = 0
      · rw [ols_regression_singular hdet] at h2
        exact absurd h2 (by simp)
      · rw [ols_regression_eq hdet] at h2
        have hout : out = ols_output m := (Except.ok.inj h2).symm
        subst hout
        rw [if_pos hols]
        exact ⟨rfl, by
          show (resultToDict m.x_list _ _ _ _).map Prod.fst = _
          simp [resultToDict, List.map_map, Function.comp]⟩
    · rw [if_neg hols] at h
      by_cases hlog : m.regression_type = "logit"
      · rw [if_pos hlog] at h
        have h2 : logistic_regression m mz = Except.ok out := Option.some.inj h
        by_cases hdet : (xt_x m).det = 0
        · rw [logistic_regression_singular hdet] at h2
          exact absurd h2 (by simp)
        · rw [logistic_regression_eq hdet] at h2
          have hout : out = logit_output m mz := (Except.ok.inj h2).symm
          subst hout
          rw [if_neg hols]
          exact ⟨rfl, by
            show (logit_results m.x_list _ _ _ _).map Prod.fst = _
            simp [logit_results, List.map_map, Function.comp]⟩
      · rw [if_neg hlog] at h
        exact absurd h (by simp)
  · intro n k x names y rt m h
    unfold initModel at h
    by_cases hrt : rt = "ols" ∨ rt = "logit"
    · rw [if_pos hrt] at h
      rw [← Except.ok.inj h]
      rfl
    · rw [if_neg hrt] at h
      exact absurd h (by simp)

theorem results_schema_witness :
    ((logit_output mLogit oconst).results
        = (List.finRange 1).map (fun i =>
          (mLogit.x_list i,
            [("coefficient", (logit_output mLogit oconst).Beta_hat i),
             ("standard_error", (logit_output mLogit oconst).stdError i),
             ((if mLogit.regression_type = "ols" then "t_stat" else "z_stat"),
               (logit_output mLogit oconst).stat i),
             ("p_value", (logit_output mLogit oconst).p_val i)])) ∧
      (logit_output mLogit oconst).results.map Prod.fst
        = (List.finRange 1).map mLogit.x_list) ∧
    mInit0.x_list = Fin.snoc names0 "intercept" := by
  have hfit : fit_model mLogit oconst
      = some (Except.ok (logit_output mLogit oconst)) := by
    have e1 : mLogit.regression_type = "logit" := rfl
    unfold fit_model
    rw [e1, if_neg (by decide : ¬ ("logit" : String) = "ols"), if_pos rfl,
      logistic_regression_eq (by rw [det_mLogit]; norm_num)]
  have hinit : initModel x0 names0 ![1] true "ols" = Except.ok mInit0 := by
    unfold initModel
    rw [if_pos (Or.inl rfl)]
    rfl
  exact ⟨results_schema.1 1 1 mLogit oconst (logit_output mLogit oconst) hfit,
    results_schema.2 1 0 x0 names0 ![1] "ols" mInit0 hinit⟩

/-- C10: neither construction nor fitting writes to the caller-owned inputs:
after constructing a model (with an intercept) and fitting it, the caller
slots of the session state are untouched, and the model-owned design matrix
is a new value formed by appending the ones column to a copy of the caller
columns, with the name "intercept" appended to the name list. -/
theorem caller_data_unchanged (s : Session n k) (rt : String)
    (mz : Minimizer (k + 1)) (s' : Session n k)
    (h : construct s rt = Except.ok s') :
    s'.x = s.x ∧ s'.names = s.names ∧ s'.y = s.y ∧
    (run_fit s' mz).x = s.x ∧ (run_fit s' mz).names = s.names ∧
    (run_fit s' mz).y = s.y ∧
    ∃ m : Model n (k + 1), s'.model = some m ∧
      (∀ i, m.x1 i = Fin.snoc (s.x i) 1) ∧
      m.x_list = Fin.snoc s.names "intercept" ∧ m.y1 = s.y := by
  by_cases hrt : rt = "ols" ∨ rt = "logit"
  · have hini : initModel s.x s.names s.y true rt
        = Except.ok
            { x1 := add_intercept_cols true s.x
            , y1 := s.y
            , x_list := add_intercept_names true s.names
            , regression_type := rt } := by
      unfold initModel
      rw [if_pos hrt]
    unfold construct at h
    rw [hini] at h
    have h2 := Except.ok.inj h
    rw [← h2]
    exact ⟨rfl, rfl, rfl, rfl, rfl, rfl, _, rfl, fun i => rfl, rfl, rfl⟩
  · have hini : initModel s.x s.names s.y true rt
        = Except.error "Enter ols or logit to processed" := by
      unfold initModel
      rw [if_neg hrt]
    unfold construct at h
    rw [hini] at h
    exact absurd h (by simp)

theorem caller_data_unchanged_witness :
    s0'.x = s0.x ∧ s0'.names = s0.names ∧ s0'.y = s0.y ∧
    (run_fit s0' oconst).x = s0.x ∧ (run_fit s0' oconst).names = s0.names ∧
    (run_fit s0' oconst).y = s0.y ∧
    ∃ m : Model 1 1, s0'.model = some m ∧
      (∀ i, m.x1 i = Fin.snoc (s0.x i) 1) ∧
      m.x_list = Fin.snoc s0.names "intercept" ∧ m.y1 = s0.y :=
  caller_data_unchanged s0 "ols" oconst s0'
    (by unfold construct initModel; rw [if_pos (Or.inl rfl)]; rfl)

end RegressionModel

end
